import Mathlib

/-!
Verification of the gpxview core (src/app.py): a GPX track viewer whose
non-trivial logic is `parse_gpx_file` (flattening the parsed GPX document's
tracks/segments/points into one point list, lines 9-24) and
`calculate_stats` (haversine distance, elevation min/max/gain and duration,
lines 70-118).  Coordinates, elevations and distances are modelled over ℝ;
timestamps over ℤ (second-level precision); the Python dict returned by
`calculate_stats` is modelled as a record of `Option` fields, a key that the
code never sets being `none`.
-/

namespace GPXView

open Real

/-- A track point as `parse_gpx_file` produces it (the dict of lines 17-22). -/
structure TrackPoint where
  latitude : ℝ
  longitude : ℝ
  elevation : Option ℝ
  time : Option ℤ

/-- A point of the document tree that `gpxpy.parse` returns (latitude and
longitude present and numeric; elevation and time optional). -/
structure GPXPoint where
  latitude : ℝ
  longitude : ℝ
  elevation : Option ℝ
  time : Option ℤ

/-- A segment of the parsed document tree. -/
structure GPXSegment where
  points : List GPXPoint

/-- A track of the parsed document tree. -/
structure GPXTrack where
  segments : List GPXSegment

/-- The parsed document tree (`gpx` on line 11). -/
structure GPX where
  tracks : List GPXTrack

/-- A raw track point element as it sits in well-formed markup: the latitude
or longitude field is `none` when the attribute is missing or not numeric. -/
structure RawPoint where
  latitude : Option ℝ
  longitude : Option ℝ
  elevation : Option ℝ
  time : Option ℤ

/-- A raw segment element of well-formed markup. -/
structure RawSegment where
  points : List RawPoint

/-- A raw track element of well-formed markup. -/
structure RawTrack where
  segments : List RawSegment

/-- The bytes handed to the parser: either not well-formed markup at all
(with the underlying syntax-error message), or a well-formed element tree. -/
inductive ParseInput where
  | notXML (msg : String)
  | xml (tracks : List RawTrack)

/-- The parse-failure error; it carries the underlying cause message. -/
structure MalformedDocument where
  msg : String

/-- Modelled from the spec: conversion of one raw point by `gpxpy.parse`
(the library call on line 11, not part of src/).  Per the spec, a point
whose latitude or longitude is missing or non-numeric is a fatal parse
error. -/
def convertPoint (p : RawPoint) : Except MalformedDocument GPXPoint :=
  match p.latitude, p.longitude with
  | some la, some lo => .ok ⟨la, lo, p.elevation, p.time⟩
  | _, _ => .error ⟨"missing or invalid latitude/longitude"⟩

/-- Modelled from the spec: conversion of one raw segment by `gpxpy.parse`. -/
def convertSegment (s : RawSegment) : Except MalformedDocument GPXSegment := do
  return ⟨← s.points.mapM convertPoint⟩

/-- Modelled from the spec: conversion of one raw track by `gpxpy.parse`. -/
def convertTrack (t : RawTrack) : Except MalformedDocument GPXTrack := do
  return ⟨← t.segments.mapM convertSegment⟩

/-- Modelled from the spec: `gpxpy.parse` (line 11), which is not part of
src/.  It fails with `MalformedDocument` carrying the underlying message
when the input is not well-formed markup, or when some point's latitude or
longitude is missing or non-numeric; otherwise it returns the document
tree. -/
def gpxpyParse : ParseInput → Except MalformedDocument GPX
  | .notXML msg => .error ⟨msg⟩
  | .xml tracks => do return ⟨← tracks.mapM convertTrack⟩

/-- The point-appending triple loop of `parse_gpx_file` (lines 13-23):
for each track, for each segment, for each point, append the dict of the
point's four fields to the accumulating list. -/
def flattenTracks (gpx : GPX) : List TrackPoint :=
  gpx.tracks.foldl (fun points track =>
    track.segments.foldl (fun points segment =>
      segment.points.foldl (fun points point =>
        points ++ [{ latitude := point.latitude, longitude := point.longitude,
                     elevation := point.elevation, time := point.time }]) points) points) []

/-- `parse_gpx_file` (lines 9-24): parse the input with gpxpy, then flatten
all points of all segments of all tracks into one list.  An exception from
`gpxpy.parse` propagates to the caller, so the result is the error or the
full list, never a partial list. -/
def parse_gpx_file (input : ParseInput) : Except MalformedDocument (List TrackPoint) :=
  (gpxpyParse input).map flattenTracks

/-- The statistics dict of `calculate_stats` (lines 100-117), one `Option`
field per key the code may set. -/
structure Stats where
  total_distance : Option ℝ := none
  total_points : Option ℕ := none
  min_elevation : Option ℝ := none
  max_elevation : Option ℝ := none
  elevation_gain : Option ℝ := none
  duration : Option ℤ := none

/-- `math.radians` (lines 85-88): degrees to radians. -/
noncomputable def radians (x : ℝ) : ℝ := x * Real.pi / 180

/-- `math.atan2 y x` (line 92), the two-argument arctangent with the C
library's quadrant convention. -/
noncomputable def atan2 (y x : ℝ) : ℝ :=
  if 0 < x then Real.arctan (y / x)
  else if x < 0 then
    (if 0 ≤ y then Real.arctan (y / x) + Real.pi else Real.arctan (y / x) - Real.pi)
  else
    (if 0 < y then Real.pi / 2 else if y < 0 then -(Real.pi / 2) else 0)

/-- One iteration of the distance loop (lines 78-93): the haversine
great-circle distance between two consecutive points, on a sphere of radius
6,371,000 meters. -/
noncomputable def segment_distance (lat1 lon1 lat2 lon2 : ℝ) : ℝ :=
  let R : ℝ := 6371000
  let lat1_rad := radians lat1
  let lat2_rad := radians lat2
  let delta_lat := radians (lat2 - lat1)
  let delta_lon := radians (lon2 - lon1)
  let a := Real.sin (delta_lat / 2) ^ 2 +
    Real.cos lat1_rad * Real.cos lat2_rad * Real.sin (delta_lon / 2) ^ 2
  let c := 2 * atan2 (Real.sqrt a) (Real.sqrt (1 - a))
  R * c

/-- The accumulation loop of lines 76-95: `for i in range(1, len(points))`
adds the haversine distance between points `i-1` and `i`. -/
noncomputable def total_distance : List TrackPoint → ℝ
  | p :: q :: rest =>
      segment_distance p.latitude p.longitude q.latitude q.longitude +
        total_distance (q :: rest)
  | _ => 0

/-- The elevation update of lines 105-110: when the filtered elevation list
is non-empty, set min, max and gain (Python's `min`/`max` of a non-empty
list fold the binary operations over it). -/
noncomputable def elevationStats (elevations : List ℝ) (s : Stats) : Stats :=
  match elevations with
  | [] => s
  | e :: es =>
    { s with
      min_elevation := some (es.foldl min e)
      max_elevation := some (es.foldl max e)
      elevation_gain := some (es.foldl max e - es.foldl min e) }

/-- The duration update of lines 113-116: when more than one filtered
timestamp exists, set `duration` to last minus first (encounter order). -/
def durationStats (times : List ℤ) (s : Stats) : Stats :=
  match times with
  | t1 :: t2 :: ts =>
    { s with duration := some ((t2 :: ts).getLast (List.cons_ne_nil t2 ts) - t1) }
  | _ => s

/-- `calculate_stats` (lines 70-118): empty input returns the empty dict;
otherwise the dict holds total distance (km) and point count, then the
elevation fields when some point has elevation, then the duration when more
than one point has a timestamp. -/
noncomputable def calculate_stats : List TrackPoint → Stats
  | [] => {}
  | p0 :: rest =>
    durationStats ((p0 :: rest).filterMap (fun p => p.time))
      (elevationStats ((p0 :: rest).filterMap (fun p => p.elevation))
        { total_distance := some (total_distance (p0 :: rest) / 1000)
          total_points := some (p0 :: rest).length })

/-! ### Field-by-field characterization of `calculate_stats` -/

theorem durationStats_total_distance (times : List ℤ) (s : Stats) :
    (durationStats times s).total_distance = s.total_distance := by
  unfold durationStats
  split <;> rfl

theorem durationStats_total_points (times : List ℤ) (s : Stats) :
    (durationStats times s).total_points = s.total_points := by
  unfold durationStats
  split <;> rfl

theorem durationStats_min_elevation (times : List ℤ) (s : Stats) :
    (durationStats times s).min_elevation = s.min_elevation := by
  unfold durationStats
  split <;> rfl

theorem durationStats_max_elevation (times : List ℤ) (s : Stats) :
    (durationStats times s).max_elevation = s.max_elevation := by
  unfold durationStats
  split <;> rfl

theorem durationStats_elevation_gain (times : List ℤ) (s : Stats) :
    (durationStats times s).elevation_gain = s.elevation_gain := by
  unfold durationStats
  split <;> rfl

theorem elevationStats_total_distance (elevations : List ℝ) (s : Stats) :
    (elevationStats elevations s).total_distance = s.total_distance := by
  unfold elevationStats
  split <;> rfl

theorem elevationStats_total_points (elevations : List ℝ) (s : Stats) :
    (elevationStats elevations s).total_points = s.total_points := by
  unfold elevationStats
  split <;> rfl

theorem elevationStats_duration (elevations : List ℝ) (s : Stats) :
    (elevationStats elevations s).duration = s.duration := by
  unfold elevationStats
  split <;> rfl

theorem calculate_stats_total_distance (p0 : TrackPoint) (rest : List TrackPoint) :
    (calculate_stats (p0 :: rest)).total_distance =
      some (total_distance (p0 :: rest) / 1000) := by
  unfold calculate_stats
  rw [durationStats_total_distance, elevationStats_total_distance]

theorem calculate_stats_total_points (p0 : TrackPoint) (rest : List TrackPoint) :
    (calculate_stats (p0 :: rest)).total_points = some (p0 :: rest).length := by
  unfold calculate_stats
  rw [durationStats_total_points, elevationStats_total_points]

theorem calculate_stats_min_elevation (p0 : TrackPoint) (rest : List TrackPoint) :
    (calculate_stats (p0 :: rest)).min_elevation =
      match (p0 :: rest).filterMap (fun p => p.elevation) with
      | [] => none
      | e :: es => some (es.foldl min e) := by
  unfold calculate_stats
  rw [durationStats_min_elevation]
  unfold elevationStats
  split <;> rfl

theorem calculate_stats_max_elevation (p0 : TrackPoint) (rest : List TrackPoint) :
    (calculate_stats (p0 :: rest)).max_elevation =
      match (p0 :: rest).filterMap (fun p => p.elevation) with
      | [] => none
      | e :: es => some (es.foldl max e) := by
  unfold calculate_stats
  rw [durationStats_max_elevation]
  unfold elevationStats
  split <;> rfl

theorem calculate_stats_elevation_gain (p0 : TrackPoint) (rest : List TrackPoint) :
    (calculate_stats (p0 :: rest)).elevation_gain =
      match (p0 :: rest).filterMap (fun p => p.elevation) with
      | [] => none
      | e :: es => some (es.foldl max e - es.foldl min e) := by
  unfold calculate_stats
  rw [durationStats_elevation_gain]
  unfold elevationStats
  split <;> rfl

theorem durationStats_duration (times : List ℤ) (s : Stats) (h : s.duration = none) :
    (durationStats times s).duration =
      match times with
      | t1 :: t2 :: ts => some ((t2 :: ts).getLast (List.cons_ne_nil t2 ts) - t1)
      | _ => none := by
  unfold durationStats
  split
  · rfl
  · exact h

theorem calculate_stats_duration (p0 : TrackPoint) (rest : List TrackPoint) :
    (calculate_stats (p0 :: rest)).duration =
      match (p0 :: rest).filterMap (fun p => p.time) with
      | t1 :: t2 :: ts => some ((t2 :: ts).getLast (List.cons_ne_nil t2 ts) - t1)
      | _ => none := by
  simp only [calculate_stats]
  rw [durationStats_duration _ _ (by rw [elevationStats_duration])]

theorem calculate_stats_min_elevation_cons (p0 : TrackPoint) (rest : List TrackPoint)
    (e : ℝ) (es : List ℝ)
    (he : (p0 :: rest).filterMap (fun p => p.elevation) = e :: es) :
    (calculate_stats (p0 :: rest)).min_elevation = some (es.foldl min e) := by
  rw [calculate_stats_min_elevation, he]

theorem calculate_stats_max_elevation_cons (p0 : TrackPoint) (rest : List TrackPoint)
    (e : ℝ) (es : List ℝ)
    (he : (p0 :: rest).filterMap (fun p => p.elevation) = e :: es) :
    (calculate_stats (p0 :: rest)).max_elevation = some (es.foldl max e) := by
  rw [calculate_stats_max_elevation, he]

theorem calculate_stats_elevation_gain_cons (p0 : TrackPoint) (rest : List TrackPoint)
    (e : ℝ) (es : List ℝ)
    (he : (p0 :: rest).filterMap (fun p => p.elevation) = e :: es) :
    (calculate_stats (p0 :: rest)).elevation_gain =
      some (es.foldl max e - es.foldl min e) := by
  rw [calculate_stats_elevation_gain, he]

theorem calculate_stats_elevation_nil (p0 : TrackPoint) (rest : List TrackPoint)
    (he : (p0 :: rest).filterMap (fun p => p.elevation) = []) :
    (calculate_stats (p0 :: rest)).min_elevation = none ∧
    (calculate_stats (p0 :: rest)).max_elevation = none ∧
    (calculate_stats (p0 :: rest)).elevation_gain = none := by
  rw [calculate_stats_min_elevation, calculate_stats_max_elevation,
    calculate_stats_elevation_gain, he]
  exact ⟨rfl, rfl, rfl⟩

theorem calculate_stats_duration_cons₂ (p0 : TrackPoint) (rest : List TrackPoint)
    (t1 t2 : ℤ) (ts : List ℤ)
    (ht : (p0 :: rest).filterMap (fun p => p.time) = t1 :: t2 :: ts) :
    (calculate_stats (p0 :: rest)).duration =
      some ((t2 :: ts).getLast (List.cons_ne_nil t2 ts) - t1) := by
  rw [calculate_stats_duration, ht]

theorem calculate_stats_duration_nil (p0 : TrackPoint) (rest : List TrackPoint)
    (ht : (p0 :: rest).filterMap (fun p => p.time) = []) :
    (calculate_stats (p0 :: rest)).duration = none := by
  rw [calculate_stats_duration, ht]

theorem calculate_stats_duration_single (p0 : TrackPoint) (rest : List TrackPoint)
    (t : ℤ) (ht : (p0 :: rest).filterMap (fun p => p.time) = [t]) :
    (calculate_stats (p0 :: rest)).duration = none := by
  rw [calculate_stats_duration, ht]

/-! ### Minimum and maximum of a non-empty list, as Python folds them -/

theorem foldl_min_mem : ∀ (l : List ℝ) (a : ℝ), l.foldl min a ∈ a :: l
  | [], a => by simp
  | b :: l, a => by
    simp only [List.foldl_cons]
    rcases List.mem_cons.mp (foldl_min_mem l (min a b)) with h | h
    · rcases le_total a b with hab | hab
      · rw [h, min_eq_left hab]; exact List.mem_cons_self a (b :: l)
      · rw [h, min_eq_right hab]
        exact List.mem_cons_of_mem _ (List.mem_cons_self b l)
    · exact List.mem_cons_of_mem _ (List.mem_cons_of_mem _ h)

theorem foldl_min_le : ∀ (l : List ℝ) (a x : ℝ), x ∈ a :: l → l.foldl min a ≤ x
  | [], a, x, hx => by
    rw [List.mem_singleton] at hx
    exact hx.ge
  | b :: l, a, x, hx => by
    simp only [List.foldl_cons]
    have h0 := foldl_min_le l (min a b) (min a b) (List.mem_cons_self _ _)
    rcases List.mem_cons.mp hx with rfl | hx'
    · exact le_trans h0 (min_le_left _ _)
    · rcases List.mem_cons.mp hx' with rfl | hx''
      · exact le_trans h0 (min_le_right _ _)
      · exact foldl_min_le l (min a b) x (List.mem_cons_of_mem _ hx'')

theorem foldl_max_mem : ∀ (l : List ℝ) (a : ℝ), l.foldl max a ∈ a :: l
  | [], a => by simp
  | b :: l, a => by
    simp only [List.foldl_cons]
    rcases List.mem_cons.mp (foldl_max_mem l (max a b)) with h | h
    · rcases le_total a b with hab | hab
      · rw [h, max_eq_right hab]
        exact List.mem_cons_of_mem _ (List.mem_cons_self b l)
      · rw [h, max_eq_left hab]; exact List.mem_cons_self a (b :: l)
    · exact List.mem_cons_of_mem _ (List.mem_cons_of_mem _ h)

theorem le_foldl_max : ∀ (l : List ℝ) (a x : ℝ), x ∈ a :: l → x ≤ l.foldl max a
  | [], a, x, hx => by
    rw [List.mem_singleton] at hx
    exact hx.le
  | b :: l, a, x, hx => by
    simp only [List.foldl_cons]
    have h0 := le_foldl_max l (max a b) (max a b) (List.mem_cons_self _ _)
    rcases List.mem_cons.mp hx with rfl | hx'
    · exact le_trans (le_max_left _ _) h0
    · rcases List.mem_cons.mp hx' with rfl | hx''
      · exact le_trans (le_max_right _ _) h0
      · exact le_foldl_max l (max a b) x (List.mem_cons_of_mem _ hx'')

theorem filterMap_elevation_ne_nil_iff (pts : List TrackPoint) :
    pts.filterMap (fun p => p.elevation) ≠ [] ↔
      ∃ p ∈ pts, p.elevation.isSome = true := by
  constructor
  · intro h
    cases he : pts.filterMap (fun p => p.elevation) with
    | nil => exact absurd he h
    | cons e es =>
      have hmem : e ∈ pts.filterMap (fun p => p.elevation) :=
        he ▸ List.mem_cons_self e es
      obtain ⟨p, hp, hpe⟩ := List.mem_filterMap.mp hmem
      exact ⟨p, hp, by rw [hpe]; rfl⟩
  · rintro ⟨p, hp, hpe⟩ hnil
    rw [List.filterMap_eq_nil_iff] at hnil
    rw [hnil p hp] at hpe
    simp at hpe

/-! ### The distance computation -/

theorem arctan_nonneg_of_nonneg {x : ℝ} (h : 0 ≤ x) : 0 ≤ Real.arctan x := by
  have := Real.arctan_strictMono.monotone h
  simpa [Real.arctan_zero] using this

theorem atan2_nonneg {y : ℝ} (x : ℝ) (hy : 0 ≤ y) : 0 ≤ atan2 y x := by
  unfold atan2
  rcases lt_trichotomy 0 x with hx | hx | hx
  · rw [if_pos hx]
    exact arctan_nonneg_of_nonneg (div_nonneg hy hx.le)
  · rw [if_neg (by rw [hx] at *; exact lt_irrefl x), if_neg (by rw [← hx]; exact lt_irrefl 0)]
    rcases lt_or_eq_of_le hy with hy' | hy'
    · rw [if_pos hy']
      positivity
    · rw [if_neg (by rw [← hy']; exact lt_irrefl 0), if_neg (by rw [← hy']; exact lt_irrefl 0)]
  · rw [if_neg (by exact fun h => absurd (h.trans hx) (lt_irrefl 0)), if_pos hx, if_pos hy]
    have h1 : -(Real.pi / 2) < Real.arctan (y / x) := Real.neg_pi_div_two_lt_arctan _
    have h2 : 0 < Real.pi := Real.pi_pos
    linarith

theorem segment_distance_nonneg (lat1 lon1 lat2 lon2 : ℝ) :
    0 ≤ segment_distance lat1 lon1 lat2 lon2 := by
  unfold segment_distance
  simp only []
  set a := Real.sin (radians (lat2 - lat1) / 2) ^ 2 +
    Real.cos (radians lat1) * Real.cos (radians lat2) *
      Real.sin (radians (lon2 - lon1) / 2) ^ 2 with ha
  have h := atan2_nonneg (Real.sqrt (1 - a)) (Real.sqrt_nonneg a)
  positivity

theorem total_distance_nonneg : ∀ pts : List TrackPoint, 0 ≤ total_distance pts
  | [] => le_refl 0
  | [_] => le_refl 0
  | p :: q :: rest => by
    have h1 := segment_distance_nonneg p.latitude p.longitude q.latitude q.longitude
    have h2 := total_distance_nonneg (q :: rest)
    unfold total_distance
    linarith

/-- The (latitude, longitude) pair of a point: all that the distance loop
reads. -/
def coords (p : TrackPoint) : ℝ × ℝ := (p.latitude, p.longitude)

/-- The spec's formulation of the total distance: the sum over consecutive
pairs (i, i+1) of the haversine segment distance. -/
noncomputable def specPairwiseSum (points : List TrackPoint) : ℝ :=
  ((points.zip points.tail).map
    (fun pq => segment_distance pq.1.latitude pq.1.longitude pq.2.latitude pq.2.longitude)).sum

theorem total_distance_eq_specPairwiseSum :
    ∀ pts : List TrackPoint, total_distance pts = specPairwiseSum pts
  | [] => by simp [total_distance, specPairwiseSum]
  | [p] => by simp [total_distance, specPairwiseSum]
  | p :: q :: rest => by
    have ih := total_distance_eq_specPairwiseSum (q :: rest)
    unfold total_distance
    unfold specPairwiseSum
    rw [List.tail_cons, List.zip_cons_cons, List.map_cons, List.sum_cons]
    unfold specPairwiseSum at ih
    rw [List.tail_cons] at ih
    rw [ih]

theorem total_distance_congr_coords :
    ∀ pts pts' : List TrackPoint, pts.map coords = pts'.map coords →
      total_distance pts = total_distance pts'
  | [], [], _ => rfl
  | [p], [p'], _ => rfl
  | p :: q :: rest, p' :: q' :: rest', h => by
    simp only [List.map_cons, List.cons.injEq] at h
    obtain ⟨hp, hq, hrest⟩ := h
    have ih := total_distance_congr_coords (q :: rest) (q' :: rest')
      (by simp only [List.map_cons, List.cons.injEq]; exact ⟨hq, hrest⟩)
    have hp1 : p.latitude = p'.latitude := congrArg Prod.fst hp
    have hp2 : p.longitude = p'.longitude := congrArg Prod.snd hp
    have hq1 : q.latitude = q'.latitude := congrArg Prod.fst hq
    have hq2 : q.longitude = q'.longitude := congrArg Prod.snd hq
    unfold total_distance
    rw [hp1, hp2, hq1, hq2, ih]
  | [], _ :: _, h => by simp at h
  | _ :: _, [], h => by simp at h
  | [_], _ :: _ :: _, h => by simp at h
  | _ :: _ :: _, [_], h => by simp at h

/-! ### Claim theorems: distance -/

/-- Claim C1: for every sequence of at least two points, the total distance
reported by `calculate_stats` equals the sum over consecutive pairs (i, i+1)
of the haversine segment distances (radius 6,371,000 m, degrees converted to
radians) divided by 1000, and elevations never influence it: any sequence
with the same latitude/longitude pairs yields the same total distance. -/
theorem total_distance_is_haversine_sum (pts : List TrackPoint)
    (h : 2 ≤ pts.length) :
    (calculate_stats pts).total_distance = some (specPairwiseSum pts / 1000) ∧
    ∀ pts' : List TrackPoint, pts'.map coords = pts.map coords →
      (calculate_stats pts').total_distance = (calculate_stats pts).total_distance := by
  match pts with
  | p0 :: rest =>
    constructor
    · rw [calculate_stats_total_distance, total_distance_eq_specPairwiseSum]
    · intro pts' hco
      cases pts' with
      | nil => simp at hco
      | cons p0' rest' =>
        rw [calculate_stats_total_distance, calculate_stats_total_distance,
          total_distance_congr_coords (p0' :: rest') (p0 :: rest) hco]

/-- A concrete two-point sequence for the distance witness. -/
def witnessPoints : List TrackPoint :=
  [{ latitude := 0, longitude := 0, elevation := none, time := none },
   { latitude := 0, longitude := 1, elevation := some 5, time := none }]

/-- Witness for claim C1 at a concrete two-point sequence. -/
theorem total_distance_is_haversine_sum_witness :
    2 ≤ witnessPoints.length ∧
    ((calculate_stats witnessPoints).total_distance =
        some (specPairwiseSum witnessPoints / 1000) ∧
      ∀ pts' : List TrackPoint, pts'.map coords = witnessPoints.map coords →
        (calculate_stats pts').total_distance =
          (calculate_stats witnessPoints).total_distance) :=
  ⟨by decide, total_distance_is_haversine_sum witnessPoints (by decide)⟩

/-- Claim C7: every haversine segment distance is nonnegative, and so is the
total distance `calculate_stats` reports, both as read with the caller's
default 0 (line 170) and whenever the field is present. -/
theorem total_distance_nonneg_claim :
    (∀ lat1 lon1 lat2 lon2 : ℝ, 0 ≤ segment_distance lat1 lon1 lat2 lon2) ∧
    (∀ pts : List TrackPoint, 0 ≤ ((calculate_stats pts).total_distance.getD 0)) ∧
    (∀ (pts : List TrackPoint) (d : ℝ),
      (calculate_stats pts).total_distance = some d → 0 ≤ d) := by
  refine ⟨segment_distance_nonneg, ?_, ?_⟩
  · intro pts
    cases pts with
    | nil => exact le_refl 0
    | cons p0 rest =>
      rw [calculate_stats_total_distance]
      exact div_nonneg (total_distance_nonneg (p0 :: rest)) (by norm_num)
  · intro pts d hd
    cases pts with
    | nil => exact absurd hd (by simp [calculate_stats])
    | cons p0 rest =>
      rw [calculate_stats_total_distance] at hd
      obtain rfl : total_distance (p0 :: rest) / 1000 = d := Option.some.inj hd
      exact div_nonneg (total_distance_nonneg (p0 :: rest)) (by norm_num)

/-! ### The parser: flattening and failure -/

/-- The dict built for one point on lines 17-22, as a function. -/
def toTrackPoint (p : GPXPoint) : TrackPoint :=
  { latitude := p.latitude, longitude := p.longitude,
    elevation := p.elevation, time := p.time }

/-- The spec's formulation of the parser output: every point of every
segment of every track, flattened into one sequence in document order. -/
def specFlatten (gpx : GPX) : List TrackPoint :=
  gpx.tracks.flatMap (fun track =>
    track.segments.flatMap (fun segment => segment.points.map toTrackPoint))

theorem foldl_append_points : ∀ (pts : List GPXPoint) (acc : List TrackPoint),
    pts.foldl (fun points point =>
      points ++ [{ latitude := point.latitude, longitude := point.longitude,
                   elevation := point.elevation, time := point.time }]) acc =
      acc ++ pts.map toTrackPoint
  | [], acc => by simp
  | p :: pts, acc => by
    rw [List.foldl_cons, foldl_append_points pts]
    simp [toTrackPoint]

theorem foldl_append_segments : ∀ (segs : List GPXSegment) (acc : List TrackPoint),
    segs.foldl (fun points segment =>
      segment.points.foldl (fun points point =>
        points ++ [{ latitude := point.latitude, longitude := point.longitude,
                     elevation := point.elevation, time := point.time }]) points) acc =
      acc ++ segs.flatMap (fun s => s.points.map toTrackPoint)
  | [], acc => by simp
  | s :: segs, acc => by
    rw [List.foldl_cons, foldl_append_points s.points acc, foldl_append_segments segs,
      List.flatMap_cons, List.append_assoc]

theorem foldl_append_tracks : ∀ (tracks : List GPXTrack) (acc : List TrackPoint),
    tracks.foldl (fun points track =>
      track.segments.foldl (fun points segment =>
        segment.points.foldl (fun points point =>
          points ++ [{ latitude := point.latitude, longitude := point.longitude,
                       elevation := point.elevation, time := point.time }]) points) points) acc =
      acc ++ tracks.flatMap (fun t => t.segments.flatMap (fun s => s.points.map toTrackPoint))
  | [], acc => by simp
  | t :: ts, acc => by
    rw [List.foldl_cons, foldl_append_segments t.segments acc, foldl_append_tracks ts,
      List.flatMap_cons, List.append_assoc]

theorem flattenTracks_eq_specFlatten (gpx : GPX) :
    flattenTracks gpx = specFlatten gpx := by
  unfold flattenTracks specFlatten
  rw [foldl_append_tracks gpx.tracks [], List.nil_append]

theorem mapM_ok_of_forall_ok {α β : Type} (f : α → Except MalformedDocument β)
    (g : α → β) :
    ∀ l : List α, (∀ a ∈ l, f a = .ok (g a)) → l.mapM f = .ok (l.map g)
  | [], _ => by rw [List.mapM_nil]; rfl
  | a :: l, h => by
    rw [List.mapM_cons, h a (List.mem_cons_self a l),
      mapM_ok_of_forall_ok f g l (fun x hx => h x (List.mem_cons_of_mem a hx))]
    rfl

theorem mapM_error_of_exists {α β : Type} (f : α → Except MalformedDocument β) :
    ∀ l : List α, (∃ a ∈ l, ∃ e, f a = .error e) → ∃ e, l.mapM f = .error e
  | [], h => absurd h (by simp)
  | a :: l, h => by
    obtain ⟨b, hb, e, he⟩ := h
    rw [List.mapM_cons]
    rcases List.mem_cons.mp hb with rfl | hb'
    · refine ⟨e, ?_⟩
      rw [he]
      rfl
    · cases hfa : f a with
      | error e' => exact ⟨e', rfl⟩
      | ok b' =>
        obtain ⟨e'', he''⟩ := mapM_error_of_exists f l ⟨b, hb', e, he⟩
        refine ⟨e'', ?_⟩
        rw [he'']
        rfl

/-- Every point of every segment of every track carries numeric latitude
and longitude. -/
def allCoordsPresent (tracks : List RawTrack) : Bool :=
  tracks.all (fun t => t.segments.all (fun s =>
    s.points.all (fun p => p.latitude.isSome && p.longitude.isSome)))

/-- Input the spec classifies as malformed: not well-formed markup, or some
point whose latitude or longitude is missing or non-numeric. -/
def malformedInput : ParseInput → Bool
  | .notXML _ => true
  | .xml tracks => tracks.any (fun t => t.segments.any (fun s =>
      s.points.any (fun p => p.latitude.isNone || p.longitude.isNone)))

/-- The document-tree point a raw point with both coordinates present
converts to. -/
def stripPoint (p : RawPoint) : GPXPoint :=
  ⟨p.latitude.getD 0, p.longitude.getD 0, p.elevation, p.time⟩

/-- The document tree a fully well-formed input converts to. -/
def stripDoc (tracks : List RawTrack) : GPX :=
  ⟨tracks.map (fun t => ⟨t.segments.map (fun s => ⟨s.points.map stripPoint⟩)⟩)⟩

theorem convertPoint_ok (p : RawPoint)
    (hp : (p.latitude.isSome && p.longitude.isSome) = true) :
    convertPoint p = .ok (stripPoint p) := by
  rw [Bool.and_eq_true] at hp
  obtain ⟨la, hla⟩ := Option.isSome_iff_exists.mp hp.1
  obtain ⟨lo, hlo⟩ := Option.isSome_iff_exists.mp hp.2
  unfold convertPoint stripPoint
  rw [hla, hlo]
  rfl

theorem gpxpyParse_ok (tracks : List RawTrack)
    (h : allCoordsPresent tracks = true) :
    gpxpyParse (.xml tracks) = .ok (stripDoc tracks) := by
  unfold allCoordsPresent at h
  rw [List.all_eq_true] at h
  have htr : tracks.mapM convertTrack =
      .ok (tracks.map (fun t => ⟨t.segments.map (fun s => ⟨s.points.map stripPoint⟩)⟩)) := by
    apply mapM_ok_of_forall_ok
    intro t ht
    have hseg := (List.all_eq_true).mp (h t ht)
    have hsg : t.segments.mapM convertSegment =
        .ok (t.segments.map (fun s => ⟨s.points.map stripPoint⟩)) := by
      apply mapM_ok_of_forall_ok
      intro s hs
      have hpt := (List.all_eq_true).mp (hseg s hs)
      have hps : s.points.mapM convertPoint = .ok (s.points.map stripPoint) :=
        mapM_ok_of_forall_ok convertPoint stripPoint s.points
          (fun p hp => convertPoint_ok p (hpt p hp))
      unfold convertSegment
      rw [hps]
      rfl
    unfold convertTrack
    rw [hsg]
    rfl
  simp only [gpxpyParse]
  rw [htr]
  rfl

theorem convertPoint_error (p : RawPoint)
    (hp : (p.latitude.isNone || p.longitude.isNone) = true) :
    ∃ e, convertPoint p = .error e := by
  unfold convertPoint
  cases hla : p.latitude with
  | none => exact ⟨_, rfl⟩
  | some la =>
    cases hlo : p.longitude with
    | none => exact ⟨_, rfl⟩
    | some lo => rw [hla, hlo] at hp; simp at hp

theorem gpxpyParse_error (input : ParseInput)
    (h : malformedInput input = true) :
    ∃ e, gpxpyParse input = .error e := by
  cases input with
  | notXML msg => exact ⟨⟨msg⟩, rfl⟩
  | xml tracks =>
    simp only [malformedInput] at h
    obtain ⟨t, ht, hts⟩ := List.any_eq_true.mp h
    obtain ⟨s, hs, hss⟩ := List.any_eq_true.mp hts
    obtain ⟨p, hpm, hp⟩ := List.any_eq_true.mp hss
    obtain ⟨e1, he1⟩ := convertPoint_error p hp
    obtain ⟨e2, he2⟩ := mapM_error_of_exists convertPoint s.points ⟨p, hpm, e1, he1⟩
    have hseg : ∃ e, convertSegment s = .error e := by
      unfold convertSegment
      refine ⟨e2, ?_⟩
      rw [he2]
      rfl
    obtain ⟨e3, he3⟩ := hseg
    obtain ⟨e4, he4⟩ := mapM_error_of_exists convertSegment t.segments ⟨s, hs, e3, he3⟩
    have htrk : ∃ e, convertTrack t = .error e := by
      unfold convertTrack
      refine ⟨e4, ?_⟩
      rw [he4]
      rfl
    obtain ⟨e5, he5⟩ := htrk
    obtain ⟨e6, he6⟩ := mapM_error_of_exists convertTrack tracks ⟨t, ht, e5, he5⟩
    simp only [gpxpyParse]
    refine ⟨e6, ?_⟩
    rw [he6]
    rfl

/-! ### Claim theorems: the parser -/

/-- Claim C5: on a well-formed document whose points all carry numeric
coordinates, `parse_gpx_file` returns exactly the flattening of all points
of all segments of all tracks in document order (outer loop over tracks,
then segments, then points), with track/segment boundaries discarded; a
document with zero tracks yields the empty sequence and is not an error. -/
theorem parse_gpx_file_flattens (tracks : List RawTrack)
    (h : allCoordsPresent tracks = true) :
    parse_gpx_file (.xml tracks) = .ok (specFlatten (stripDoc tracks)) ∧
    (tracks = [] → parse_gpx_file (.xml tracks) = .ok []) := by
  constructor
  · unfold parse_gpx_file
    rw [gpxpyParse_ok tracks h]
    exact congrArg Except.ok (flattenTracks_eq_specFlatten _)
  · intro ht
    subst ht
    rfl

/-- A concrete well-formed two-track document (second track empty, one
empty segment) for the C5 witness. -/
def rawTracksWitness : List RawTrack :=
  [⟨[⟨[⟨some 35, some 135, some 10, some 100⟩,
       ⟨some 36, some 136, none, none⟩]⟩, ⟨[]⟩]⟩,
   ⟨[]⟩]

/-- Witness for claim C5 at a concrete document. -/
theorem parse_gpx_file_flattens_witness :
    allCoordsPresent rawTracksWitness = true ∧
    (parse_gpx_file (.xml rawTracksWitness) =
        .ok (specFlatten (stripDoc rawTracksWitness)) ∧
      (rawTracksWitness = [] →
        parse_gpx_file (.xml rawTracksWitness) = .ok [])) :=
  ⟨rfl, parse_gpx_file_flattens rawTracksWitness rfl⟩

/-- Claim C6: on malformed input — not well-formed markup, or some point's
latitude/longitude missing or non-numeric — `parse_gpx_file` fails with a
`MalformedDocument` error, never returns any point sequence (no partial
result), and for non-markup input the error carries the underlying cause
message. -/
theorem parse_gpx_file_malformed (input : ParseInput)
    (h : malformedInput input = true) :
    (∃ e : MalformedDocument, parse_gpx_file input = .error e) ∧
    (∀ pts : List TrackPoint, parse_gpx_file input ≠ .ok pts) ∧
    (∀ msg : String, input = .notXML msg → parse_gpx_file input = .error ⟨msg⟩) := by
  obtain ⟨e, he⟩ := gpxpyParse_error input h
  have herr : parse_gpx_file input = .error e := by
    unfold parse_gpx_file
    rw [he]
    rfl
  refine ⟨⟨e, herr⟩, ?_, ?_⟩
  · intro pts hok
    rw [herr] at hok
    exact Except.noConfusion hok
  · intro msg hmsg
    subst hmsg
    rfl

/-- Witness for claim C6 at a concrete non-markup input. -/
theorem parse_gpx_file_malformed_witness :
    malformedInput (.notXML "syntax error: line 1, column 0") = true ∧
    ((∃ e : MalformedDocument,
        parse_gpx_file (.notXML "syntax error: line 1, column 0") = .error e) ∧
      (∀ pts : List TrackPoint,
        parse_gpx_file (.notXML "syntax error: line 1, column 0") ≠ .ok pts) ∧
      (∀ msg : String,
        ParseInput.notXML "syntax error: line 1, column 0" = .notXML msg →
          parse_gpx_file (.notXML "syntax error: line 1, column 0") =
            .error ⟨msg⟩)) :=
  ⟨rfl, parse_gpx_file_malformed _ rfl⟩

/-- Modelled from the spec: a raw point whose present coordinates respect
the GPX schema's ranges (the spec's data model: latitude in [-90, 90],
longitude in [-180, 180]); schema validity of the uploaded document is
enforced by the external parsing library, not by src/. -/
def rawInRange (p : RawPoint) : Prop :=
  (∀ la : ℝ, p.latitude = some la → -90 ≤ la ∧ la ≤ 90) ∧
  (∀ lo : ℝ, p.longitude = some lo → -180 ≤ lo ∧ lo ≤ 180)

theorem allCoordsPresent_of_parse_ok (tracks : List RawTrack)
    (pts : List TrackPoint)
    (hp : parse_gpx_file (.xml tracks) = .ok pts) :
    allCoordsPresent tracks = true := by
  cases hac : allCoordsPresent tracks with
  | true => rfl
  | false =>
    exfalso
    have hmal : malformedInput (.xml tracks) = true := by
      simp only [malformedInput, List.any_eq_true]
      simp only [allCoordsPresent] at hac
      obtain ⟨t, ht, hts⟩ := List.all_eq_false.mp hac
      obtain ⟨s, hs, hss⟩ := List.all_eq_false.mp (Bool.eq_false_iff.mpr hts)
      obtain ⟨p, hpm, hpp⟩ := List.all_eq_false.mp (Bool.eq_false_iff.mpr hss)
      refine ⟨t, ht, s, hs, p, hpm, ?_⟩
      cases hla : p.latitude <;> cases hlo : p.longitude <;>
        simp [hla, hlo] at hpp ⊢
    obtain ⟨e, he⟩ := gpxpyParse_error _ hmal
    unfold parse_gpx_file at hp
    rw [he] at hp
    exact Except.noConfusion hp

/-- Claim C8: every point `parse_gpx_file` produces from a schema-valid
document has latitude in [-90, 90] and longitude in [-180, 180]. -/
theorem parse_coords_in_range (tracks : List RawTrack)
    (hr : ∀ t ∈ tracks, ∀ s ∈ t.segments, ∀ p ∈ s.points, rawInRange p)
    (pts : List TrackPoint)
    (hp : parse_gpx_file (.xml tracks) = .ok pts) :
    ∀ q ∈ pts, (-90 ≤ q.latitude ∧ q.latitude ≤ 90) ∧
      (-180 ≤ q.longitude ∧ q.longitude ≤ 180) := by
  have hall := allCoordsPresent_of_parse_ok tracks pts hp
  have hps : parse_gpx_file (.xml tracks) = .ok (flattenTracks (stripDoc tracks)) := by
    unfold parse_gpx_file
    rw [gpxpyParse_ok tracks hall]
    rfl
  obtain rfl : flattenTracks (stripDoc tracks) = pts :=
    Except.ok.inj (hps.symm.trans hp)
  intro q hq
  rw [flattenTracks_eq_specFlatten] at hq
  unfold specFlatten stripDoc at hq
  simp only [List.mem_flatMap, List.mem_map] at hq
  obtain ⟨tr, ⟨t, ht, htr⟩, sg, hsg, gp, hgp, hq⟩ := hq
  subst htr
  simp only [List.mem_map] at hsg
  obtain ⟨s, hs, hsg'⟩ := hsg
  subst hsg'
  simp only [List.mem_map] at hgp
  obtain ⟨p, hpm, hgp'⟩ := hgp
  subst hgp'
  subst hq
  have hpr := hr t ht s hs p hpm
  simp only [allCoordsPresent, List.all_eq_true] at hall
  have hpresent := hall t ht s hs p hpm
  rw [Bool.and_eq_true] at hpresent
  obtain ⟨la, hla⟩ := Option.isSome_iff_exists.mp hpresent.1
  obtain ⟨lo, hlo⟩ := Option.isSome_iff_exists.mp hpresent.2
  have h1 : (toTrackPoint (stripPoint p)).latitude = la := by
    simp [toTrackPoint, stripPoint, hla]
  have h2 : (toTrackPoint (stripPoint p)).longitude = lo := by
    simp [toTrackPoint, stripPoint, hlo]
  rw [h1, h2]
  exact ⟨hpr.1 la hla, hpr.2 lo hlo⟩

/-- A concrete schema-valid document and its parse result for the C8
witness. -/
def rangeTracksWitness : List RawTrack :=
  [⟨[⟨[⟨some 35, some 135, none, none⟩]⟩]⟩]

/-- Witness for claim C8 at a concrete document. -/
theorem parse_coords_in_range_witness :
    (∀ t ∈ rangeTracksWitness, ∀ s ∈ t.segments, ∀ p ∈ s.points, rawInRange p) ∧
    parse_gpx_file (.xml rangeTracksWitness) =
      .ok [{ latitude := 35, longitude := 135, elevation := none, time := none }] ∧
    (∀ q ∈ [({ latitude := 35, longitude := 135, elevation := none,
               time := none } : TrackPoint)],
      (-90 ≤ q.latitude ∧ q.latitude ≤ 90) ∧
      (-180 ≤ q.longitude ∧ q.longitude ≤ 180)) := by
  have hr : ∀ t ∈ rangeTracksWitness, ∀ s ∈ t.segments, ∀ p ∈ s.points,
      rawInRange p := by
    intro t ht s hs p hpm
    simp only [rangeTracksWitness, List.mem_singleton] at ht
    subst ht
    simp only [List.mem_singleton] at hs
    subst hs
    simp only [List.mem_singleton] at hpm
    subst hpm
    constructor
    · intro la hla
      obtain rfl : (35 : ℝ) = la := Option.some.inj hla
      norm_num
    · intro lo hlo
      obtain rfl : (135 : ℝ) = lo := Option.some.inj hlo
      norm_num
  have hps : parse_gpx_file (.xml rangeTracksWitness) =
      .ok [{ latitude := 35, longitude := 135, elevation := none, time := none }] := rfl
  exact ⟨hr, hps, parse_coords_in_range rangeTracksWitness hr _ hps⟩

/-! ### Claim theorems: elevation and duration -/

/-- Claim C3: the three elevation fields are present exactly when at least
one point carries an elevation; when present, the minimum and maximum are
the least and greatest elevation among the points carrying one (both are
attained), the minimum is at most the maximum, and the gain is their
nonnegative difference. -/
theorem elevation_stats_correct (pts : List TrackPoint) :
    ((calculate_stats pts).min_elevation.isSome = true ↔
      ∃ p ∈ pts, p.elevation.isSome = true) ∧
    ((calculate_stats pts).max_elevation.isSome = true ↔
      ∃ p ∈ pts, p.elevation.isSome = true) ∧
    ((calculate_stats pts).elevation_gain.isSome = true ↔
      ∃ p ∈ pts, p.elevation.isSome = true) ∧
    (∀ m M : ℝ, (calculate_stats pts).min_elevation = some m →
      (calculate_stats pts).max_elevation = some M →
      m ∈ pts.filterMap (fun p => p.elevation) ∧
      M ∈ pts.filterMap (fun p => p.elevation) ∧
      (∀ x ∈ pts.filterMap (fun p => p.elevation), m ≤ x ∧ x ≤ M) ∧
      m ≤ M ∧
      (calculate_stats pts).elevation_gain = some (M - m) ∧
      0 ≤ M - m) := by
  cases pts with
  | nil =>
    refine ⟨by simp [calculate_stats], by simp [calculate_stats],
      by simp [calculate_stats], ?_⟩
    intro m M hm
    exact absurd hm (by simp [calculate_stats])
  | cons p0 rest =>
    cases he : (p0 :: rest).filterMap (fun p => p.elevation) with
    | nil =>
      obtain ⟨h1, h2, h3⟩ := calculate_stats_elevation_nil p0 rest he
      have hall := List.filterMap_eq_nil_iff.mp he
      have hno : ¬∃ p ∈ p0 :: rest, p.elevation.isSome = true := by
        rintro ⟨p, hp, hps⟩
        rw [hall p hp] at hps
        exact absurd hps (by simp)
      refine ⟨by rw [h1]; exact iff_of_false (by simp) hno,
        by rw [h2]; exact iff_of_false (by simp) hno,
        by rw [h3]; exact iff_of_false (by simp) hno, ?_⟩
      intro m M hm
      exact absurd hm (by simp [h1])
    | cons e es =>
      have h1 := calculate_stats_min_elevation_cons p0 rest e es he
      have h2 := calculate_stats_max_elevation_cons p0 rest e es he
      have h3 := calculate_stats_elevation_gain_cons p0 rest e es he
      have hyes : ∃ p ∈ p0 :: rest, p.elevation.isSome = true := by
        have hmem : e ∈ (p0 :: rest).filterMap (fun p => p.elevation) := by
          rw [he]; exact List.mem_cons_self e es
        obtain ⟨p, hp, hpe⟩ := List.mem_filterMap.mp hmem
        exact ⟨p, hp, by rw [hpe]; rfl⟩
      refine ⟨by rw [h1]; exact iff_of_true rfl hyes,
        by rw [h2]; exact iff_of_true rfl hyes,
        by rw [h3]; exact iff_of_true rfl hyes, ?_⟩
      intro m M hm hM
      obtain rfl : es.foldl min e = m := Option.some.inj (h1.symm.trans hm)
      obtain rfl : es.foldl max e = M := Option.some.inj (h2.symm.trans hM)
      have hbound : ∀ x ∈ e :: es, es.foldl min e ≤ x ∧ x ≤ es.foldl max e :=
        fun x hx => ⟨foldl_min_le es e x hx, le_foldl_max es e x hx⟩
      have hmm := (hbound _ (foldl_min_mem es e)).2
      exact ⟨foldl_min_mem es e, foldl_max_mem es e, hbound, hmm, h3,
        sub_nonneg.mpr hmm⟩

/-- Claim C4: the duration field is present exactly when at least two points
carry a timestamp; when present it is the last timestamp-carrying point's
timestamp minus the first's, in encounter order over the filtered timestamp
list. -/
theorem duration_correct (pts : List TrackPoint) :
    ((calculate_stats pts).duration.isSome = true ↔
      2 ≤ (pts.filterMap (fun p => p.time)).length) ∧
    (∀ d : ℤ, (calculate_stats pts).duration = some d →
      ∃ tf tl : ℤ, (pts.filterMap (fun p => p.time)).head? = some tf ∧
        (pts.filterMap (fun p => p.time)).getLast? = some tl ∧ d = tl - tf) := by
  cases pts with
  | nil =>
    refine ⟨by simp [calculate_stats], ?_⟩
    intro d hd
    exact absurd hd (by simp [calculate_stats])
  | cons p0 rest =>
    cases ht : (p0 :: rest).filterMap (fun p => p.time) with
    | nil =>
      have h := calculate_stats_duration_nil p0 rest ht
      refine ⟨by simp [h, ht], ?_⟩
      intro d hd
      exact absurd hd (by simp [h])
    | cons t1 ts' =>
      cases ts' with
      | nil =>
        have h := calculate_stats_duration_single p0 rest t1 ht
        refine ⟨by simp [h, ht], ?_⟩
        intro d hd
        exact absurd hd (by simp [h])
      | cons t2 ts =>
        have h := calculate_stats_duration_cons₂ p0 rest t1 t2 ts ht
        refine ⟨by simp [h, ht], ?_⟩
        intro d hd
        obtain rfl : (t2 :: ts).getLast (List.cons_ne_nil t2 ts) - t1 = d :=
          Option.some.inj (h.symm.trans hd)
        refine ⟨t1, (t2 :: ts).getLast (List.cons_ne_nil t2 ts), rfl, ?_, rfl⟩
        rw [List.getLast?_eq_getLast (t1 :: t2 :: ts) (List.cons_ne_nil _ _),
          List.getLast_cons (List.cons_ne_nil t2 ts)]

/-! ### Claim theorem: `calculate_stats` never raises -/

/-- Python's `min` of a list: raises on the empty list. -/
noncomputable def pyMin : List ℝ → Except String ℝ
  | [] => .error "min() arg is an empty sequence"
  | e :: es => .ok (es.foldl min e)

/-- Python's `max` of a list: raises on the empty list. -/
noncomputable def pyMax : List ℝ → Except String ℝ
  | [] => .error "max() arg is an empty sequence"
  | e :: es => .ok (es.foldl max e)

/-- Python's `times[0]`: raises on the empty list. -/
def pyFirst : List ℤ → Except String ℤ
  | [] => .error "list index out of range"
  | t :: _ => .ok t

/-- Python's `times[-1]`: raises on the empty list. -/
def pyLast (l : List ℤ) : Except String ℤ :=
  match l.getLast? with
  | some t => .ok t
  | none => .error "list index out of range"

/-- `calculate_stats` with every partial Python operation it performs —
`min`/`max` of a list (lines 107-109) and indexing `times[-1]`, `times[0]`
(line 115) — made explicit as a fallible call, so that an unguarded empty
aggregate or out-of-bounds access would surface as an error value. -/
noncomputable def calculate_statsChecked : List TrackPoint → Except String Stats
  | [] => .ok {}
  | p0 :: rest => do
    let elevations := (p0 :: rest).filterMap (fun p => p.elevation)
    let base : Stats := { total_distance := some (total_distance (p0 :: rest) / 1000)
                          total_points := some (p0 :: rest).length }
    let s1 ←
      if elevations.isEmpty then pure base
      else do
        let mn ← pyMin elevations
        let mx ← pyMax elevations
        pure { base with min_elevation := some mn, max_elevation := some mx,
                         elevation_gain := some (mx - mn) }
    let times := (p0 :: rest).filterMap (fun p => p.time)
    if times.length > 1 then do
      let tl ← pyLast times
      let tf ← pyFirst times
      pure { s1 with duration := some (tl - tf) }
    else
      pure s1

theorem pyLast_cons₂ (t1 t2 : ℤ) (ts : List ℤ) :
    pyLast (t1 :: t2 :: ts) =
      .ok ((t2 :: ts).getLast (List.cons_ne_nil t2 ts)) := by
  unfold pyLast
  rw [List.getLast?_eq_getLast (t1 :: t2 :: ts) (List.cons_ne_nil _ _),
    List.getLast_cons (List.cons_ne_nil t2 ts)]

theorem except_ok_bind {ε α β : Type} (a : α) (f : α → Except ε β) :
    (Except.ok a : Except ε α) >>= f = f a := rfl

theorem pyMin_cons (e : ℝ) (es : List ℝ) : pyMin (e :: es) = .ok (es.foldl min e) := rfl

theorem pyMax_cons (e : ℝ) (es : List ℝ) : pyMax (e :: es) = .ok (es.foldl max e) := rfl

/-- Claim C10: on every finite point sequence `calculate_stats` returns a
summary and never raises: the guards of lines 105 and 114 ensure the
min/max aggregates and the list indexing are only evaluated on inputs where
they succeed, so the checked variant always returns `ok` of the summary. -/
theorem calculate_stats_never_raises (pts : List TrackPoint) :
    calculate_statsChecked pts = .ok (calculate_stats pts) := by
  cases pts with
  | nil => rfl
  | cons p0 rest =>
    simp only [calculate_statsChecked, calculate_stats]
    cases he : (p0 :: rest).filterMap (fun p => p.elevation) with
    | nil =>
      rw [if_pos (List.isEmpty_nil), pure_bind]
      cases ht : (p0 :: rest).filterMap (fun p => p.time) with
      | nil => rfl
      | cons t1 ts' =>
        cases ts' with
        | nil => rfl
        | cons t2 ts =>
          rw [if_pos (by simp : (t1 :: t2 :: ts).length > 1), pyLast_cons₂,
            except_ok_bind]
          rfl
    | cons e es =>
      rw [if_neg (by simp : ¬((e :: es).isEmpty = true)), pyMin_cons,
        except_ok_bind, pyMax_cons, except_ok_bind, pure_bind]
      cases ht : (p0 :: rest).filterMap (fun p => p.time) with
      | nil => rfl
      | cons t1 ts' =>
        cases ts' with
        | nil => rfl
        | cons t2 ts =>
          rw [if_pos (by simp : (t1 :: t2 :: ts).length > 1), pyLast_cons₂,
            except_ok_bind]
          rfl

/-! ### Claim theorems: empty input and determinism -/

/-- Claim C2: on the empty TrackPoint sequence `calculate_stats` returns,
without error, the empty dict: the point count read with the caller's
default (line 171 reads it with default 0) is 0, and every field — total
distance, point count, the three elevation fields and the duration — is
absent. -/
theorem calculate_stats_empty_all_absent :
    (calculate_stats []).total_points.getD 0 = 0 ∧
    (calculate_stats []).total_points = none ∧
    (calculate_stats []).total_distance = none ∧
    (calculate_stats []).min_elevation = none ∧
    (calculate_stats []).max_elevation = none ∧
    (calculate_stats []).elevation_gain = none ∧
    (calculate_stats []).duration = none :=
  ⟨rfl, rfl, rfl, rfl, rfl, rfl, rfl⟩

/-- Claim C9: parsing and computing statistics are pure functions of the
input — two runs on identical input yield identical point sequences and
identical statistics. -/
theorem parse_then_stats_deterministic (input : ParseInput) :
    parse_gpx_file input = parse_gpx_file input ∧
    (parse_gpx_file input).map (fun pts => calculate_stats pts) =
      (parse_gpx_file input).map (fun pts => calculate_stats pts) :=
  ⟨rfl, rfl⟩

end GPXView
